import Mathlib

/-!
Verification of `krackn88/email-to-telegram` (`forward.py` and friends).

Shallow embedding conventions:
* byte payloads are modelled as `List Char` (the magic-link pattern and all
  stripped punctuation are ASCII, and `decode("utf-8", errors="replace")`
  is the identity on the characters the claims are about);
* network and filesystem effects are oracles passed in explicitly;
* Python exceptions raised by collaborators are explicit constructors
  (`PartResult.exn`, `FetchRes.exn`, `PostResult.exn`, `Except.error`).
-/

namespace EmailToTelegram

/-- The apostrophe character, used in several literal strings of the program. -/
def apos : Char := Char.ofNat 39

/-- Opening brace character (JSON object start). -/
def braceO : Char := Char.ofNat 123

/-- Closing brace character (JSON object end). -/
def braceC : Char := Char.ofNat 125

/-! ## Link extractor (`forward.py` lines 104-137) -/

/-- The fixed literal part of `CLAUDE_MAGIC_LINK_RE`:
`https://claude.ai/magic-link#`. The regex matches it case-insensitively
(`re.IGNORECASE`). -/
def linkStem : List Char := "https://claude.ai/magic-link#".data

/-- Characters excluded by the negated regex character class of
`CLAUDE_MAGIC_LINK_RE`: whitespace, double quote, apostrophe, the angle
brackets, the closing parenthesis and the closing square bracket. -/
def isExcluded (c : Char) : Bool :=
  c == ' ' || c == '\t' || c == '\n' || c == '\r' || c == '\x0b' || c == '\x0c' ||
  c == '"' || c == apos || c == '<' || c == '>' || c == ')' || c == ']'

/-- Case-insensitive match of the pattern stem `pat` against a prefix of `s`
(ASCII case folding, as `re.IGNORECASE` does on bytes). -/
def stemMatches : List Char → List Char → Bool
  | [], _ => true
  | _ :: _, [] => false
  | p :: ps, c :: cs => (c.toLower == p) && stemMatches ps cs

/-- Attempt the regex match anchored at the start of `s`: the stem matched
case-insensitively, followed by one or more non-excluded characters (greedy).
Returns the matched text (`m.group(0)`), preserving the casing of the input. -/
def matchAt (s : List Char) : Option (List Char) :=
  if stemMatches linkStem s then
    let run := (s.drop linkStem.length).takeWhile (fun c => !isExcluded c)
    if run.isEmpty then none else some (s.take linkStem.length ++ run)
  else none

/-- Model of `re.search`: leftmost match of the magic-link pattern in `s`. -/
def firstMatch : List Char → Option (List Char)
  | [] => none
  | c :: cs =>
    match matchAt (c :: cs) with
    | some m => some m
    | none => firstMatch cs

/-- Characters removed by the rstrip call of `scan`: apostrophe, double
quote, greater-than, closing parenthesis, closing square bracket. -/
def isStripped (c : Char) : Bool :=
  c == apos || c == '"' || c == '>' || c == ')' || c == ']'

/-- Python rstrip over that character set. -/
def rstripPunct (s : List Char) : List Char :=
  ((s.reverse).dropWhile isStripped).reverse

/-- Python `url.startswith("http")` (case-sensitive). -/
def startsHttp (s : List Char) : Bool :=
  s.take 4 == "http".data

/-- The inner `scan` closure of `extract_claude_magic_link`:
falsy payload contributes nothing; otherwise the first regex match is
rstripped and kept only when it (case-sensitively) starts with `http`. -/
def scan (payload : Option (List Char)) : Option (List Char) :=
  match payload with
  | none => none
  | some p =>
    if p.isEmpty then none
    else
      match firstMatch p with
      | none => none
      | some m =>
        let url := rstripPunct m
        if startsHttp url then some url else none

/-- One part of the message walk: either `get_payload(decode=True)` returns
(possibly `None`), or it raises (swallowed by the `except Exception` arms). -/
inductive PartResult where
  | payload (p : Option (List Char))
  | exn
deriving DecidableEq

/-- An email message as `extract_claude_magic_link` consumes it: either
non-multipart (a single body part) or multipart (parts in `walk()` order). -/
inductive EmailMsg where
  | single (part : PartResult)
  | multi (parts : List PartResult)
deriving DecidableEq

/-- The multipart loop of `extract_claude_magic_link`: first part whose
`scan` yields a URL wins; a part that raises is skipped. -/
def extractFromParts : List PartResult → Option (List Char)
  | [] => none
  | PartResult.exn :: rest => extractFromParts rest
  | PartResult.payload p :: rest =>
    match scan p with
    | some u => some u
    | none => extractFromParts rest

/-- Model of `extract_claude_magic_link` (forward.py lines 111-137). -/
def extract_claude_magic_link : EmailMsg → Option (List Char)
  | EmailMsg.multi parts => extractFromParts parts
  | EmailMsg.single PartResult.exn => none
  | EmailMsg.single (PartResult.payload p) => scan p

/-- The parts of a message in traversal order (walk order for multipart,
the single body otherwise). -/
def partsOf : EmailMsg → List PartResult
  | EmailMsg.single p => [p]
  | EmailMsg.multi ps => ps

/-- The first raw pattern match in the content of a part (before the
`startswith("http")` filter), `none` for unreadable/absent content. -/
def partRawMatch : PartResult → Option (List Char)
  | PartResult.exn => none
  | PartResult.payload none => none
  | PartResult.payload (some b) => firstMatch b

/-- Spec-side description of the claimed result: the first part (in traversal
order) with a raw pattern match contributes that match, rstripped. -/
def specFirstRaw (parts : List PartResult) : Option (List Char) :=
  parts.findSome? (fun p => (partRawMatch p).map rstripPunct)

/-- Spec-side description of the actual result: the first part whose first
raw match, once rstripped, still begins with lowercase `http`. -/
def specFirstAccepted (parts : List PartResult) : Option (List Char) :=
  parts.findSome? (fun p =>
    (partRawMatch p).bind (fun m =>
      let u := rstripPunct m
      if startsHttp u then some u else none))

/-- Holds (`true`) when no part of the message contains any substring matching the
magic-link pattern. -/
def noPartMatches (msg : EmailMsg) : Bool :=
  (partsOf msg).all (fun p => (partRawMatch p).isNone)

lemma scan_eq_raw (p : Option (List Char)) :
    scan p = (partRawMatch (PartResult.payload p)).bind
      (fun m =>
        let u := rstripPunct m
        if startsHttp u then some u else none) := by
  cases p with
  | none => rfl
  | some b =>
    cases b with
    | nil => rfl
    | cons c cs =>
      simp only [scan, partRawMatch, List.isEmpty_cons, Bool.false_eq_true, if_false]
      cases h : firstMatch (c :: cs) <;> simp [h]

lemma extractFromParts_eq (ps : List PartResult) :
    extractFromParts ps = specFirstAccepted ps := by
  induction ps with
  | nil => rfl
  | cons p rest ih =>
    cases p with
    | exn =>
      simp [extractFromParts, specFirstAccepted, List.findSome?, partRawMatch] at ih ⊢
      exact ih
    | payload q =>
      simp only [extractFromParts, specFirstAccepted, List.findSome?]
      rw [scan_eq_raw q]
      cases h : (partRawMatch (PartResult.payload q)).bind
          (fun m =>
            let u := rstripPunct m
            if startsHttp u then some u else none) with
      | some u => simp [h]
      | none =>
        simp [h]
        simpa [specFirstAccepted] using ih

lemma extract_eq_specFirstAccepted (msg : EmailMsg) :
    extract_claude_magic_link msg = specFirstAccepted (partsOf msg) := by
  cases msg with
  | multi ps => exact extractFromParts_eq ps
  | single p =>
    cases p with
    | exn => rfl
    | payload q =>
      show scan q = specFirstAccepted [PartResult.payload q]
      rw [scan_eq_raw q]
      simp [specFirstAccepted, List.findSome?]
      cases h : (partRawMatch (PartResult.payload q)) with
      | none => simp [h]
      | some m =>
        simp [h]
        split <;> simp

lemma specFirstAccepted_none_of_all_raw_none (ps : List PartResult)
    (h : ps.all (fun p => (partRawMatch p).isNone) = true) :
    specFirstAccepted ps = none := by
  induction ps with
  | nil => rfl
  | cons p rest ih =>
    simp only [List.all_cons, Bool.and_eq_true] at h
    have hp : partRawMatch p = none := Option.isNone_iff_eq_none.mp h.1
    simp [specFirstAccepted, List.findSome?, hp]
    simpa [specFirstAccepted] using ih h.2

/-- C1 counterexample: the message whose single part is
`HTTPS://claude.ai/magic-link#x` contains a substring matching the
(case-insensitive) magic-link pattern, and the rstripped first match of the
first (only) part is that very string, yet `extract_claude_magic_link`
returns `none` — because `url.startswith("http")` is case-sensitive. -/
theorem C1_counterexample :
    specFirstRaw (partsOf (EmailMsg.single (PartResult.payload
        (some "HTTPS://claude.ai/magic-link#x".data)))) =
      some "HTTPS://claude.ai/magic-link#x".data ∧
    extract_claude_magic_link (EmailMsg.single (PartResult.payload
        (some "HTTPS://claude.ai/magic-link#x".data))) = none := by
  constructor
  · decide
  · decide

/-- C1 (amended): `extract_claude_magic_link` returns exactly the first
*accepted* match in part-traversal order: the rstripped first pattern-match
of the first part whose rstripped first match still begins with lowercase
`http`; `none` when no part has such a match. -/
theorem C1_extract_first_accepted (msg : EmailMsg) :
    extract_claude_magic_link msg = specFirstAccepted (partsOf msg) :=
  extract_eq_specFirstAccepted msg

/-- C7: extraction never raises — a part whose payload access raises is
skipped and traversal continues with the remaining parts; a raising
non-multipart body yields `none`; and a message none of whose parts contain
a pattern match yields `none` (the absent outcome), not an error. -/
theorem C7_extract_never_raises :
    (∀ rest, extract_claude_magic_link (EmailMsg.multi (PartResult.exn :: rest)) =
        extract_claude_magic_link (EmailMsg.multi rest)) ∧
    extract_claude_magic_link (EmailMsg.single PartResult.exn) = none ∧
    (∀ msg, noPartMatches msg = true → extract_claude_magic_link msg = none) := by
  refine ⟨fun rest => rfl, rfl, fun msg h => ?_⟩
  rw [extract_eq_specFirstAccepted]
  exact specFirstAccepted_none_of_all_raw_none (partsOf msg) h

/-- C7 witness: a multipart message with a raising part followed by a
non-matching part yields `none`. -/
theorem C7_witness :
    extract_claude_magic_link (EmailMsg.multi
      [PartResult.exn, PartResult.payload (some "hello world".data)]) = none :=
  C7_extract_never_raises.2.2
    (EmailMsg.multi [PartResult.exn, PartResult.payload (some "hello world".data)])
    (by decide)

/-! ## Delivery channel: `send_telegram` (forward.py lines 182-201) -/

/-- Constant `TELEGRAM_MAX_LENGTH` (forward.py line 39). -/
def TELEGRAM_MAX_LENGTH : Nat := 4050

/-- Outcome of one `requests.post` to the Bot API: HTTP 200, a non-200
response with its computed description (`data.get("description", ...)`),
or a raised `requests.RequestException`. -/
inductive PostResult where
  | ok
  | fail (status : Nat) (desc : String)
  | exn (e : String)
deriving DecidableEq

/-- Network oracle: the responses to the HTML-formatted post and to the
plain-text retry post for the i-th chunk. -/
structure TgOracle where
  html : Nat → PostResult
  plain : Nat → PostResult

/-- One post actually performed, with the chunk text it carried. -/
inductive Attempt where
  | html (text : List Char)
  | plain (text : List Char)
deriving DecidableEq

/-- The chunk text carried by an attempt. -/
def attemptText : Attempt → List Char
  | Attempt.html t => t
  | Attempt.plain t => t

/-- The substring tested against the lowercased description on a 403. -/
def cantInitiate : String := "can" ++ String.mk [apos] ++ "t initiate conversation"

/-- The actionable 403 failure reason returned by `send_telegram`. -/
def telegram403Msg : String :=
  "Telegram 403: The recipient must message the bot first (e.g. send " ++
    String.mk [apos] ++ "hi" ++ String.mk [apos] ++ " to the bot), then run again."

/-- The generic failure reason: `f"Telegram API error: {r.status_code} {desc}"`. -/
def apiErrorMsg (status : Nat) (desc : String) : String :=
  "Telegram API error: " ++ toString status ++ " " ++ desc

/-- The reason for a raised request exception. -/
def requestFailedMsg (e : String) : String := "Telegram request failed: " ++ e

/-- Tests that `pat` is a literal prefix of the second list. -/
def hasPrefixCL : List Char → List Char → Bool
  | [], _ => true
  | _ :: _, [] => false
  | p :: ps, c :: cs => p == c && hasPrefixCL ps cs

/-- Python `pat in s` on strings, over character lists. -/
def containsCL (pat : List Char) : List Char → Bool
  | [] => pat.isEmpty
  | c :: cs => hasPrefixCL pat (c :: cs) || containsCL pat cs

/-- Python `str.lower()` (ASCII as relevant here). -/
def lowerCL (s : List Char) : List Char := s.map Char.toLower

/-- The 403 test of line 196: status 403 and the initiate-conversation
substring occurring in the lowercased description. -/
def is403Conversation (status : Nat) (desc : String) : Bool :=
  status == 403 && containsCL cantInitiate.data (lowerCL desc.data)

/-- Failure classification of the final non-200 response. -/
def classifyFailure (status : Nat) (desc : String) : String :=
  if is403Conversation status desc then telegram403Msg else apiErrorMsg status desc

/-- One iteration of the chunk loop: HTML-formatted post first; on a non-200
response one plain-text retry; a raised exception at either post aborts with
the request-failed reason; a final non-200 aborts with the classified reason.
Returns (failure reason if any, posts performed). -/
def sendChunk (o : TgOracle) (idx : Nat) (chunk : List Char) :
    Option String × List Attempt :=
  match o.html idx with
  | PostResult.exn e => (some (requestFailedMsg e), [Attempt.html chunk])
  | PostResult.ok => (none, [Attempt.html chunk])
  | PostResult.fail _ _ =>
    match o.plain idx with
    | PostResult.exn e =>
      (some (requestFailedMsg e), [Attempt.html chunk, Attempt.plain chunk])
    | PostResult.ok => (none, [Attempt.html chunk, Attempt.plain chunk])
    | PostResult.fail st d =>
      (some (classifyFailure st d), [Attempt.html chunk, Attempt.plain chunk])

/-- Fuel-indexed chunking; with fuel at least the list length it computes the
consecutive slices of length `TELEGRAM_MAX_LENGTH`. -/
def chunksOfF : Nat → List Char → List (List Char)
  | _, [] => []
  | 0, _ :: _ => []
  | fuel + 1, c :: cs =>
    (c :: cs).take TELEGRAM_MAX_LENGTH :: chunksOfF fuel ((c :: cs).drop TELEGRAM_MAX_LENGTH)

/-- The consecutive slices `text[i : i + TELEGRAM_MAX_LENGTH]` for
`i in range(0, len(text), TELEGRAM_MAX_LENGTH)`. -/
def chunksOf (l : List Char) : List (List Char) :=
  chunksOfF l.length l

lemma chunksOfF_congr : ∀ (f1 f2 : Nat) (l : List Char),
    l.length ≤ f1 → l.length ≤ f2 → chunksOfF f1 l = chunksOfF f2 l := by
  intro f1
  induction f1 with
  | zero =>
    intro f2 l h1 _
    have : l = [] := List.eq_nil_of_length_eq_zero (Nat.le_zero.mp h1)
    subst this
    cases f2 <;> rfl
  | succ g ih =>
    intro f2 l h1 h2
    cases l with
    | nil => cases f2 <;> rfl
    | cons c cs =>
      cases f2 with
      | zero => simp at h2
      | succ g2 =>
        simp only [chunksOfF]
        have hM : TELEGRAM_MAX_LENGTH = 4050 := rfl
        have hlen : ((c :: cs).drop TELEGRAM_MAX_LENGTH).length ≤ g := by
          simp only [List.length_drop, List.length_cons] at h1 ⊢
          omega
        have hlen2 : ((c :: cs).drop TELEGRAM_MAX_LENGTH).length ≤ g2 := by
          simp only [List.length_drop, List.length_cons] at h2 ⊢
          omega
        rw [ih _ _ hlen hlen2]

/-- The chunk loop of `send_telegram`: slices are sent in order; the first
failing slice ends the call with `(False, reason)` and later slices are not
attempted; if all slices succeed the call returns `(True, None)`. -/
def sendChunks (o : TgOracle) (idx : Nat) :
    List (List Char) → (Bool × Option String) × List Attempt
  | [] => ((true, none), [])
  | c :: cs =>
    match sendChunk o idx c with
    | (some err, atts) => ((false, some err), atts)
    | (none, atts) =>
      let rest := sendChunks o (idx + 1) cs
      (rest.1, atts ++ rest.2)

/-- Model of `send_telegram` (forward.py lines 182-201), also returning the
posts it performed. -/
def send_telegram (o : TgOracle) (text : List Char) :
    (Bool × Option String) × List Attempt :=
  sendChunks o 0 (chunksOf text)

lemma chunksOf_nil : chunksOf [] = [] := rfl

lemma chunksOf_cons (l : List Char) (h : l ≠ []) :
    chunksOf l = l.take TELEGRAM_MAX_LENGTH :: chunksOf (l.drop TELEGRAM_MAX_LENGTH) := by
  cases l with
  | nil => exact absurd rfl h
  | cons c cs =>
    show chunksOfF (cs.length + 1) (c :: cs) = _
    simp only [chunksOfF]
    rw [chunksOfF_congr cs.length ((c :: cs).drop TELEGRAM_MAX_LENGTH).length]
    · rfl
    · have hM : TELEGRAM_MAX_LENGTH = 4050 := rfl
      simp only [List.length_drop, List.length_cons]
      omega
    · exact le_rfl

lemma chunksOf_join_aux : ∀ (n : Nat) (l : List Char), l.length ≤ n →
    (chunksOf l).flatten = l := by
  intro n
  induction n with
  | zero =>
    intro l hl
    have : l = [] := List.eq_nil_of_length_eq_zero (Nat.le_zero.mp hl)
    subst this
    simp [chunksOf_nil]
  | succ n ih =>
    intro l hl
    by_cases h : l = []
    · subst h; simp [chunksOf_nil]
    · rw [chunksOf_cons l h]
      simp only [List.flatten_cons]
      have hM : TELEGRAM_MAX_LENGTH = 4050 := rfl
      have h1 : 0 < l.length := List.length_pos.mpr h
      have hrec : (l.drop TELEGRAM_MAX_LENGTH).length ≤ n := by
        simp only [List.length_drop]
        omega
      rw [ih _ hrec, List.take_append_drop]

lemma chunksOf_join (l : List Char) : (chunksOf l).flatten = l :=
  chunksOf_join_aux l.length l le_rfl

lemma chunksOf_len_le_aux : ∀ (n : Nat) (l : List Char), l.length ≤ n →
    ∀ c ∈ chunksOf l, c.length ≤ TELEGRAM_MAX_LENGTH := by
  intro n
  induction n with
  | zero =>
    intro l hl
    have : l = [] := List.eq_nil_of_length_eq_zero (Nat.le_zero.mp hl)
    subst this
    simp [chunksOf_nil]
  | succ n ih =>
    intro l hl c hc
    by_cases h : l = []
    · subst h
      rw [chunksOf_nil] at hc
      simp at hc
    · rw [chunksOf_cons l h, List.mem_cons] at hc
      cases hc with
      | inl hc =>
        subst hc
        exact List.length_take_le TELEGRAM_MAX_LENGTH l
      | inr hc =>
        have h1 : 0 < l.length := List.length_pos.mpr h
        have hM : TELEGRAM_MAX_LENGTH = 4050 := rfl
        refine ih (l.drop TELEGRAM_MAX_LENGTH) ?_ c hc
        simp only [List.length_drop]
        omega

lemma chunksOf_lengths_10000 (l : List Char) (h : l.length = 10000) :
    (chunksOf l).map List.length = [4050, 4050, 1900] := by
  have hM : TELEGRAM_MAX_LENGTH = 4050 := rfl
  have h0 : l ≠ [] := by
    intro e; subst e; simp at h
  rw [chunksOf_cons l h0]
  have h1 : (l.drop TELEGRAM_MAX_LENGTH).length = 5950 := by
    simp [List.length_drop, hM, h]
  have h1ne : l.drop TELEGRAM_MAX_LENGTH ≠ [] := by
    intro e; rw [e] at h1; simp at h1
  rw [chunksOf_cons _ h1ne]
  have h2 : ((l.drop TELEGRAM_MAX_LENGTH).drop TELEGRAM_MAX_LENGTH).length = 1900 := by
    simp only [List.length_drop, hM]
    omega
  have h2ne : (l.drop TELEGRAM_MAX_LENGTH).drop TELEGRAM_MAX_LENGTH ≠ [] := by
    intro e; rw [e] at h2; simp at h2
  rw [chunksOf_cons _ h2ne]
  have h3 : (((l.drop TELEGRAM_MAX_LENGTH).drop TELEGRAM_MAX_LENGTH).drop
      TELEGRAM_MAX_LENGTH).length = 0 := by
    simp only [List.length_drop, hM]
    omega
  have h3nil : ((l.drop TELEGRAM_MAX_LENGTH).drop TELEGRAM_MAX_LENGTH).drop
      TELEGRAM_MAX_LENGTH = [] := List.eq_nil_of_length_eq_zero h3
  rw [h3nil, chunksOf_nil]
  simp [List.length_take, hM, h, h1, h2]

lemma sendChunks_all_ok (o : TgOracle) (hok : ∀ i, o.html i = PostResult.ok) :
    ∀ (cs : List (List Char)) (idx : Nat),
      sendChunks o idx cs = ((true, none), cs.map Attempt.html) := by
  intro cs
  induction cs with
  | nil => intro idx; rfl
  | cons c cs ih =>
    intro idx
    have hc : sendChunk o idx c = (none, [Attempt.html c]) := by
      simp [sendChunk, hok idx]
    simp [sendChunks, hc, ih (idx + 1)]

/-- C10: for the empty input the chunk loop body never runs: no post is
performed and the call reports success `(True, None)`. -/
theorem C10_empty_text (o : TgOracle) :
    send_telegram o [] = ((true, none), []) := by
  simp [send_telegram, chunksOf_nil, sendChunks]

/-- C4: when every (HTML) post succeeds, `send_telegram` performs exactly one
post per slice, in order; the slices are consecutive (they concatenate back
to the input) and each is at most `TELEGRAM_MAX_LENGTH` long; the call
succeeds; and an input of length 10,000 yields exactly 3 posts of slice
lengths 4050, 4050, 1900 in that order. -/
theorem C4_chunked_delivery (o : TgOracle) (text : List Char)
    (hok : ∀ i, o.html i = PostResult.ok) :
    (send_telegram o text).2 = (chunksOf text).map Attempt.html ∧
    (chunksOf text).flatten = text ∧
    (∀ c ∈ chunksOf text, c.length ≤ TELEGRAM_MAX_LENGTH) ∧
    (send_telegram o text).1 = (true, none) ∧
    (text.length = 10000 →
      ((send_telegram o text).2).map (fun a => (attemptText a).length) =
        [4050, 4050, 1900]) := by
  have hrun : send_telegram o text = ((true, none), (chunksOf text).map Attempt.html) := by
    simp [send_telegram, sendChunks_all_ok o hok]
  refine ⟨by rw [hrun], chunksOf_join text,
    chunksOf_len_le_aux text.length text le_rfl, by rw [hrun], fun hlen => ?_⟩

  rw [hrun]
  simp only [List.map_map]
  have : ((fun a => (attemptText a).length) ∘ Attempt.html) = List.length := by
    funext c; rfl
  rw [this, chunksOf_lengths_10000 text hlen]

/-- C4 witness: an all-OK oracle and a 10,000-character input give posts of
slice lengths 4050, 4050, 1900. -/
theorem C4_witness :
    ((send_telegram (TgOracle.mk (fun _ => PostResult.ok) (fun _ => PostResult.ok))
        (List.replicate 10000 'a')).2).map (fun a => (attemptText a).length) =
      [4050, 4050, 1900] :=
  (C4_chunked_delivery _ _ (fun _ => rfl)).2.2.2.2 (by rw [List.length_replicate])

lemma hasPrefixCL_append (s t : List Char) : hasPrefixCL s (s ++ t) = true := by
  induction s with
  | nil => rfl
  | cons c cs ih => simp [hasPrefixCL, ih]

lemma containsCL_of_append (pat l r : List Char) :
    containsCL pat (l ++ (pat ++ r)) = true := by
  induction l with
  | nil =>
    cases pat with
    | nil => cases r <;> simp [containsCL, hasPrefixCL]
    | cons p ps =>
      have h := hasPrefixCL_append (p :: ps) r
      simp only [List.cons_append] at h
      simp [containsCL, h]
  | cons c l ih => simp [containsCL, ih]

/-- C5: on a failing slice, the HTML post is retried exactly once as a plain
post; if the plain retry succeeds the slice succeeds; if both fail, a 403
whose lowercased description contains the initiate-conversation substring
yields the distinct actionable reason, any other failure yields the
`Telegram API error` reason carrying the raw status and description; and the
call returns at the first failing slice without attempting later slices. -/
theorem C5_slice_retry_and_failure (o : TgOracle) (idx : Nat) (chunk : List Char)
    (s : Nat) (d : String) (hfail : o.html idx = PostResult.fail s d) :
    (sendChunk o idx chunk).2 = [Attempt.html chunk, Attempt.plain chunk] ∧
    (o.plain idx = PostResult.ok → (sendChunk o idx chunk).1 = none) ∧
    (∀ st dd, o.plain idx = PostResult.fail st dd → is403Conversation st dd = true →
      (sendChunk o idx chunk).1 = some telegram403Msg) ∧
    (∀ st dd, o.plain idx = PostResult.fail st dd → is403Conversation st dd = false →
      (sendChunk o idx chunk).1 = some (apiErrorMsg st dd) ∧
      containsCL (toString st).data (apiErrorMsg st dd).data = true ∧
      containsCL dd.data (apiErrorMsg st dd).data = true) ∧
    (∀ (cs : List (List Char)) (c : List Char) (e : String),
      (sendChunk o idx c).1 = some e →
      sendChunks o idx (c :: cs) = ((false, some e), (sendChunk o idx c).2)) := by
  refine ⟨?_, ?_, ?_, ?_, ?_⟩
  · cases hp : o.plain idx <;> simp [sendChunk, hfail, hp]
  · intro hp
    simp [sendChunk, hfail, hp]
  · intro st dd hp h403
    simp [sendChunk, hfail, hp, classifyFailure, h403]
  · intro st dd hp h403
    refine ⟨by simp [sendChunk, hfail, hp, classifyFailure, h403], ?_, ?_⟩
    · have hform : (apiErrorMsg st dd).data =
          "Telegram API error: ".data ++ ((toString st).data ++ (" ".data ++ dd.data)) := by
        simp [apiErrorMsg, String.data_append, List.append_assoc]
      rw [hform]
      exact containsCL_of_append (toString st).data "Telegram API error: ".data
        (" ".data ++ dd.data)
    · have hform : (apiErrorMsg st dd).data =
          ("Telegram API error: ".data ++ (toString st).data ++ " ".data) ++
            (dd.data ++ []) := by
        simp [apiErrorMsg, String.data_append, List.append_assoc]
      rw [hform]
      exact containsCL_of_append dd.data _ []
  · intro cs c e he
    rcases hsc : sendChunk o idx c with ⟨f, atts⟩
    rw [hsc] at he
    simp only at he
    subst he
    simp [sendChunks, hsc]

/-- C5 witness: both posts for the slice return 403 with an
initiate-conversation description, and the actionable reason is returned. -/
theorem C5_witness :
    (sendChunk
      (TgOracle.mk
        (fun _ => PostResult.fail 403 ("Forbidden: bot " ++ cantInitiate ++ " with the user"))
        (fun _ => PostResult.fail 403 ("Forbidden: bot " ++ cantInitiate ++ " with the user")))
      0 "x".data).1 = some telegram403Msg :=
  (C5_slice_retry_and_failure _ 0 "x".data 403
      ("Forbidden: bot " ++ cantInitiate ++ " with the user") rfl).2.2.1 403
    ("Forbidden: bot " ++ cantInitiate ++ " with the user") rfl (by decide)

/-! ## On-demand selection: `get_latest_claude_link_from_gmail`
(forward.py lines 204-247) -/

/-- A single-quote string, for the literal messages of the program. -/
def sq : String := String.mk [apos]

/-- The subject re-validation of lines 241-242 / 317-318: the decoded subject
must case-insensitively contain both `secure link` and `claude`. -/
def subjectValid (subject : String) : Bool :=
  containsCL "secure link".data (lowerCL subject.data) &&
  containsCL "claude".data (lowerCL subject.data)

/-- Outcome of `client.fetch([uid], ...)`: a raised exception, a reply not
containing the uid (`uid not in data`), or the parsed message (its decoded
subject and its content tree). -/
inductive FetchRes where
  | exn (e : String)
  | missing
  | ok (subject : String) (body : EmailMsg)

/-- Mailbox/credential oracle for the on-demand path. -/
structure GmailEnv where
  imapUserSet : Bool
  tokenFileExists : Bool
  imapPasswordSet : Bool
  oauthTokenOk : Bool
  searchRes : Except String (List Nat)
  fetch : Nat → FetchRes

/-- Python `max(uids)` over a (nonempty) list of uids. -/
def maxUid (uids : List Nat) : Nat := uids.foldl Nat.max 0

/-- The user-facing absence message. -/
def noMatchMsg : String := "No Claude login email from today."

/-- The message when the fetched email holds no magic link. -/
def noUrlMsg : String := "No magic-link URL in today" ++ sq ++ "s Claude email."

/-- Lines 236-247: what happens to the single fetched message. -/
def afterFetch (fr : FetchRes) : Option (List Char) × Option String :=
  match fr with
  | FetchRes.exn e => (none, some ("Fetch failed: " ++ e))
  | FetchRes.missing => (none, some "Fetch failed")
  | FetchRes.ok subject body =>
    if subjectValid subject then
      match extract_claude_magic_link body with
      | none => (none, some noUrlMsg)
      | some link => (some link, none)
    else (none, some noMatchMsg)

/-- Model of `get_latest_claude_link_from_gmail` (forward.py lines 204-247). -/
def get_latest_claude_link_from_gmail (env : GmailEnv) :
    Option (List Char) × Option String :=
  if !env.imapUserSet then (none, some "IMAP_USER not set")
  else if !(env.tokenFileExists && !env.imapPasswordSet) && !env.imapPasswordSet then
    (none, some ("Run " ++ sq ++ "python main.py auth" ++ sq ++ " or set IMAP_PASSWORD"))
  else if (env.tokenFileExists && !env.imapPasswordSet) && !env.oauthTokenOk then
    (none, some ("OAuth expired. Run " ++ sq ++ "python main.py auth" ++ sq ++ " again."))
  else
    match env.searchRes with
    | Except.error e => (none, some ("IMAP search failed: " ++ e))
    | Except.ok uids =>
      if uids.isEmpty then (none, some noMatchMsg)
      else afterFetch (env.fetch (maxUid uids))

/-- Valid configuration for the on-demand path (no early credential return). -/
def gmailConfigOk (env : GmailEnv) : Bool :=
  env.imapUserSet &&
  ((env.tokenFileExists && !env.imapPasswordSet) || env.imapPasswordSet) &&
  (!(env.tokenFileExists && !env.imapPasswordSet) || env.oauthTokenOk)

lemma le_foldl_max (l : List Nat) : ∀ a, a ≤ l.foldl Nat.max a := by
  induction l with
  | nil => intro a; exact le_rfl
  | cons b l ih =>
    intro a
    exact le_trans (Nat.le_max_left a b) (ih (Nat.max a b))

lemma mem_le_foldl_max (l : List Nat) : ∀ a, ∀ u ∈ l, u ≤ l.foldl Nat.max a := by
  induction l with
  | nil => intro a u hu; simp at hu
  | cons b l ih =>
    intro a u hu
    rcases List.mem_cons.mp hu with h | h
    · subst h
      exact le_trans (Nat.le_max_right a u) (le_foldl_max l (Nat.max a u))
    · exact ih (Nat.max a b) u h

lemma foldl_max_mem (l : List Nat) : ∀ a, l.foldl Nat.max a = a ∨ l.foldl Nat.max a ∈ l := by
  induction l with
  | nil => intro a; exact Or.inl rfl
  | cons b l ih =>
    intro a
    rcases ih (Nat.max a b) with h | h
    · rcases Nat.le_total a b with hab | hab
      · right
        have hm : Nat.max a b = b := Nat.max_eq_right hab
        rw [List.foldl_cons, h, hm]
        exact List.mem_cons_self b l
      · left
        have hm : Nat.max a b = a := Nat.max_eq_left hab
        rw [List.foldl_cons, h, hm]
    · right
      exact List.mem_cons_of_mem b h

lemma maxUid_mem (l : List Nat) (h : l ≠ []) : maxUid l ∈ l := by
  rcases foldl_max_mem l 0 with h0 | h0
  · cases l with
    | nil => exact absurd rfl h
    | cons x xs =>
      have hx : x ≤ maxUid (x :: xs) := mem_le_foldl_max (x :: xs) 0 x (List.mem_cons_self x xs)
      have : maxUid (x :: xs) = 0 := h0
      have hx0 : x = 0 := Nat.le_zero.mp (this ▸ hx)
      rw [this, ← hx0]
      exact List.mem_cons_self x xs
  · exact h0

lemma gmail_gate (env : GmailEnv) (hc : gmailConfigOk env = true) :
    get_latest_claude_link_from_gmail env =
      match env.searchRes with
      | Except.error e => (none, some ("IMAP search failed: " ++ e))
      | Except.ok uids =>
        if uids.isEmpty then (none, some noMatchMsg)
        else afterFetch (env.fetch (maxUid uids)) := by
  rcases env with ⟨u, t, p, o, s, f⟩
  cases u <;> cases t <;> cases p <;> cases o <;>
    simp_all [gmailConfigOk, get_latest_claude_link_from_gmail]

/-- C6: with valid credentials, a search protocol failure yields the
technical error carrying its cause; an empty result yields the user-facing
no-match message; a nonempty result leads to a fetch of exactly the
numerically greatest id (the whole outcome is a function of that one
message); a fetch protocol failure yields the technical error carrying its
cause; a failed subject re-validation yields the no-match message; a
successful re-validation with a link in the body yields the link. -/
theorem C6_latest_selection (env : GmailEnv) (hc : gmailConfigOk env = true) :
    (∀ e, env.searchRes = Except.error e →
      get_latest_claude_link_from_gmail env =
        (none, some ("IMAP search failed: " ++ e))) ∧
    (env.searchRes = Except.ok [] →
      get_latest_claude_link_from_gmail env = (none, some noMatchMsg)) ∧
    (∀ uids, env.searchRes = Except.ok uids → uids ≠ [] →
      get_latest_claude_link_from_gmail env = afterFetch (env.fetch (maxUid uids)) ∧
      maxUid uids ∈ uids ∧ (∀ u ∈ uids, u ≤ maxUid uids)) ∧
    (∀ uids e, env.searchRes = Except.ok uids → uids ≠ [] →
      env.fetch (maxUid uids) = FetchRes.exn e →
      get_latest_claude_link_from_gmail env = (none, some ("Fetch failed: " ++ e))) ∧
    (∀ uids subject body, env.searchRes = Except.ok uids → uids ≠ [] →
      env.fetch (maxUid uids) = FetchRes.ok subject body → subjectValid subject = false →
      get_latest_claude_link_from_gmail env = (none, some noMatchMsg)) ∧
    (∀ uids subject body link, env.searchRes = Except.ok uids → uids ≠ [] →
      env.fetch (maxUid uids) = FetchRes.ok subject body → subjectValid subject = true →
      extract_claude_magic_link body = some link →
      get_latest_claude_link_from_gmail env = (some link, none)) := by
  have hg := gmail_gate env hc
  refine ⟨?_, ?_, ?_, ?_, ?_, ?_⟩
  · intro e hs
    rw [hg, hs]
  · intro hs
    rw [hg, hs]
    rfl
  · intro uids hs hne
    rw [hg, hs]
    simp only [List.isEmpty_eq_true]
    rw [if_neg hne]
    exact ⟨rfl, maxUid_mem uids hne, mem_le_foldl_max uids 0⟩
  · intro uids e hs hne hf
    rw [hg, hs]
    simp only [List.isEmpty_eq_true]
    rw [if_neg hne, hf]
    rfl
  · intro uids subject body hs hne hf hsub
    rw [hg, hs]
    simp only [List.isEmpty_eq_true]
    rw [if_neg hne, hf]
    simp [afterFetch, hsub]
  · intro uids subject body link hs hne hf hsub hx
    rw [hg, hs]
    simp only [List.isEmpty_eq_true]
    rw [if_neg hne, hf]
    simp [afterFetch, hsub, hx]

/-- C6 witness: search returns `[3, 7, 5]`; the message with uid 7 has a
valid subject and a magic link in its body, and the link is returned. -/
theorem C6_witness :
    get_latest_claude_link_from_gmail
      (GmailEnv.mk true false true true (Except.ok [3, 7, 5])
        (fun u => if u == 7 then
            FetchRes.ok "Secure link to log in to Claude.ai"
              (EmailMsg.single (PartResult.payload
                (some "go https://claude.ai/magic-link#abc123) now".data)))
          else FetchRes.missing)) =
      (some "https://claude.ai/magic-link#abc123".data, none) :=
  (C6_latest_selection _ (by decide)).2.2.2.2.2 [3, 7, 5]
    "Secure link to log in to Claude.ai"
    (EmailMsg.single (PartResult.payload
      (some "go https://claude.ai/magic-link#abc123) now".data)))
    "https://claude.ai/magic-link#abc123".data rfl (by decide) rfl (by decide) (by decide)

/-! ## Forward Cycle: `run` (forward.py lines 258-341) -/

/-- Insert into a sorted list (ascending). -/
def insertSorted (x : Nat) : List Nat → List Nat
  | [] => [x]
  | y :: ys => if x ≤ y then x :: y :: ys else y :: insertSorted x ys

/-- Python `sorted(uids)` for lists of naturals (ascending). -/
def sortNat (l : List Nat) : List Nat := l.foldr insertSorted []

/-- Environment of one forward cycle: configuration, mailbox and network. -/
structure RunEnv where
  imapUserSet : Bool
  tokenFileExists : Bool
  imapPasswordSet : Bool
  oauthTokenOk : Bool
  telegramConfigOk : Bool
  searchRes : Except String (List Nat)
  fetch : Nat → FetchRes
  tg : Nat → TgOracle

/-- Observable events of one forward cycle, in order. -/
inductive Event where
  | exitConfig
  | loadState
  | saveState
  | exitOauth
  | searchMail
  | fetchMail (uid : Nat)
  | sendLink (uid : Nat) (ok : Bool)
  | markSeen (uid : Nat)
deriving DecidableEq

/-- The per-candidate loop body (lines 306-341): fetch; on fetch failure or
subject-revalidation failure or absent link (or dry run) move on; otherwise
send the link over Telegram and mark the message `\Seen` exactly when the
send reported success. -/
def processCandidate (env : RunEnv) (dryRun : Bool) (uid : Nat) : List Event :=
  Event.fetchMail uid ::
    match env.fetch uid with
    | FetchRes.exn _ => []
    | FetchRes.missing => []
    | FetchRes.ok subject body =>
      if subjectValid subject then
        match extract_claude_magic_link body with
        | none => []
        | some link =>
          if dryRun then []
          else
            (Event.sendLink uid (send_telegram (env.tg uid) link).1.1) ::
              (if (send_telegram (env.tg uid) link).1.1 then [Event.markSeen uid]
               else [])
      else []

/-- Startup configuration checks of `run` (lines 264-273). -/
def runConfigOk (env : RunEnv) : Bool :=
  env.imapUserSet &&
  ((env.tokenFileExists && !env.imapPasswordSet) || env.imapPasswordSet) &&
  env.telegramConfigOk

/-- The event trace of one forward cycle `run(dry_run)` (lines 258-341):
configuration exits, then `load_state`, then the OAuth-token exit if taken,
then the search, then the per-candidate loop over the ascending-sorted uids.
`save_state` would appear as `Event.saveState`. -/
def runTrace (env : RunEnv) (dryRun : Bool) : List Event :=
  if !runConfigOk env then [Event.exitConfig]
  else
    Event.loadState ::
      (if (env.tokenFileExists && !env.imapPasswordSet) && !env.oauthTokenOk then
        [Event.exitOauth]
      else
        Event.searchMail ::
          match env.searchRes with
          | Except.error _ => []
          | Except.ok uids => (sortNat uids).flatMap (processCandidate env dryRun))

/-- Holds when the delivery of the link extracted from `uid` succeeded in
this cycle. -/
def deliveredOk (env : RunEnv) (uid : Nat) : Bool :=
  match env.fetch uid with
  | FetchRes.ok subject body =>
    subjectValid subject &&
      (match extract_claude_magic_link body with
       | some link => (send_telegram (env.tg uid) link).1.1
       | none => false)
  | _ => false

lemma mem_insertSorted (x u : Nat) : ∀ (l : List Nat),
    u ∈ insertSorted x l ↔ u = x ∨ u ∈ l := by
  intro l
  induction l with
  | nil => simp [insertSorted]
  | cons y ys ih =>
    by_cases h : x ≤ y
    · simp [insertSorted, h, List.mem_cons]
    · simp only [insertSorted, if_neg h, List.mem_cons, ih]
      tauto

lemma mem_sortNat (u : Nat) : ∀ (l : List Nat), u ∈ sortNat l ↔ u ∈ l := by
  intro l
  induction l with
  | nil => simp [sortNat]
  | cons x xs ih =>
    show u ∈ insertSorted x (sortNat xs) ↔ _
    rw [mem_insertSorted, ih]
    simp [List.mem_cons]

lemma markSeen_mem_processCandidate (env : RunEnv) (dry : Bool) (u v : Nat) :
    Event.markSeen u ∈ processCandidate env dry v ↔
      v = u ∧ dry = false ∧ deliveredOk env v = true := by
  cases hf : env.fetch v with
  | exn e => simp [processCandidate, deliveredOk, hf]
  | missing => simp [processCandidate, deliveredOk, hf]
  | ok subject body =>
    by_cases hsub : subjectValid subject
    · cases hx : extract_claude_magic_link body with
      | none => simp [processCandidate, deliveredOk, hf, hsub, hx]
      | some link =>
        cases dry with
        | true => simp [processCandidate, hf, hsub, hx]
        | false =>
          cases hok : (send_telegram (env.tg v) link).1.1 with
          | true =>
            simp [processCandidate, deliveredOk, hf, hsub, hx, hok]
            tauto
          | false => simp [processCandidate, deliveredOk, hf, hsub, hx, hok]
    · simp [processCandidate, deliveredOk, hf, hsub]

lemma fetchMail_mem_processCandidate (env : RunEnv) (dry : Bool) (u v : Nat) :
    Event.fetchMail u ∈ processCandidate env dry v ↔ u = v := by
  cases hf : env.fetch v with
  | exn e => simp [processCandidate, hf]
  | missing => simp [processCandidate, hf]
  | ok subject body =>
    by_cases hsub : subjectValid subject
    · cases hx : extract_claude_magic_link body with
      | none => simp [processCandidate, hf, hsub, hx]
      | some link =>
        cases dry with
        | true => simp [processCandidate, hf, hsub, hx]
        | false =>
          cases hok : (send_telegram (env.tg v) link).1.1 <;>
            simp [processCandidate, hf, hsub, hx, hok]
    · simp [processCandidate, hf, hsub]

lemma saveState_not_mem_processCandidate (env : RunEnv) (dry : Bool) (v : Nat) :
    Event.saveState ∉ processCandidate env dry v := by
  cases hf : env.fetch v with
  | exn e => simp [processCandidate, hf]
  | missing => simp [processCandidate, hf]
  | ok subject body =>
    by_cases hsub : subjectValid subject
    · cases hx : extract_claude_magic_link body with
      | none => simp [processCandidate, hf, hsub, hx]
      | some link =>
        cases dry with
        | true => simp [processCandidate, hf, hsub, hx]
        | false =>
          cases hok : (send_telegram (env.tg v) link).1.1 <;>
            simp [processCandidate, hf, hsub, hx, hok]
    · simp [processCandidate, hf, hsub]

/-- A benign no-op cycle: valid configuration, password auth, a successful
search returning no matching mail. -/
def envNoMail : RunEnv :=
  RunEnv.mk true false true true true (Except.ok []) (fun _ => FetchRes.missing)
    (fun _ => TgOracle.mk (fun _ => PostResult.ok) (fun _ => PostResult.ok))

/-- C2 counterexample: in a cycle that completes as a benign no-op (valid
configuration, search succeeded, no matching mail) the state is read but
`save_state` is never invoked — the trace contains `loadState` and no
`saveState`, refuting "writes it back after the cycle completes". -/
theorem C2_counterexample :
    Event.loadState ∈ runTrace envNoMail false ∧
    Event.searchMail ∈ runTrace envNoMail false ∧
    Event.saveState ∉ runTrace envNoMail false := by
  refine ⟨?_, ?_, ?_⟩ <;> decide

/-- C2 (amended): every forward cycle that passes the configuration checks
begins by reading the processing state, and no forward cycle ever writes it
back — `save_state` is defined (lines 86-88) but never called by `run`. -/
theorem C2_reads_never_writes (env : RunEnv) (dry : Bool) :
    (runConfigOk env = true → (runTrace env dry).head? = some Event.loadState) ∧
    Event.saveState ∉ runTrace env dry := by
  constructor
  · intro hc
    simp [runTrace, hc]
  · intro hmem
    by_cases hc : runConfigOk env = true
    · by_cases hoa : ((env.tokenFileExists && !env.imapPasswordSet) &&
          !env.oauthTokenOk) = true
      · simp [runTrace, hc, hoa] at hmem
      · simp only [Bool.not_eq_true] at hoa
        cases hs : env.searchRes with
        | error e => simp [runTrace, hc, hoa, hs] at hmem
        | ok uids =>
          simp [runTrace, hc, hoa, hs, List.mem_flatMap] at hmem
          obtain ⟨v, _, hv⟩ := hmem
          exact saveState_not_mem_processCandidate env dry v hv
    · simp only [Bool.not_eq_true] at hc
      simp [runTrace, hc] at hmem

/-- C2 witness: the trace of the benign no-op cycle starts with the state
read. -/
theorem C2_witness :
    (runTrace envNoMail false).head? = some Event.loadState :=
  (C2_reads_never_writes envNoMail false).1 (by decide)

/-- C3: in a non-dry forward cycle with valid configuration and a successful
search, a candidate is marked `\Seen` exactly when the Telegram delivery of
its extracted link reported success, and every candidate is fetched
(a delivery failure for one candidate does not stop the loop). -/
theorem C3_mark_read_iff_delivered (env : RunEnv) (uids : List Nat)
    (hc : runConfigOk env = true)
    (hoauth : ((env.tokenFileExists && !env.imapPasswordSet) && !env.oauthTokenOk) = false)
    (hs : env.searchRes = Except.ok uids) :
    (∀ uid, Event.markSeen uid ∈ runTrace env false ↔
      uid ∈ uids ∧ deliveredOk env uid = true) ∧
    (∀ uid ∈ uids, Event.fetchMail uid ∈ runTrace env false) := by
  have ht : runTrace env false =
      Event.loadState :: Event.searchMail ::
        (sortNat uids).flatMap (processCandidate env false) := by
    simp [runTrace, hc, hoauth, hs]
  constructor
  · intro uid
    rw [ht]
    simp only [List.mem_cons, List.mem_flatMap]
    constructor
    · rintro (h | h | ⟨v, hv, hmem⟩)
      · exact absurd h (by simp)
      · exact absurd h (by simp)
      · rcases (markSeen_mem_processCandidate env false uid v).mp hmem with ⟨hvu, _, hdel⟩
        subst hvu
        exact ⟨(mem_sortNat v uids).mp hv, hdel⟩
    · rintro ⟨hmem, hdel⟩
      refine Or.inr (Or.inr ⟨uid, (mem_sortNat uid uids).mpr hmem, ?_⟩)
      exact (markSeen_mem_processCandidate env false uid uid).mpr ⟨rfl, rfl, hdel⟩
  · intro uid hmem
    rw [ht]
    simp only [List.mem_cons, List.mem_flatMap]
    refine Or.inr (Or.inr ⟨uid, (mem_sortNat uid uids).mpr hmem, ?_⟩)
    exact (fetchMail_mem_processCandidate env false uid uid).mpr rfl

/-- One candidate whose fetch reply misses the uid: no delivery, no
mark-read. -/
def envOneMissing : RunEnv :=
  RunEnv.mk true false true true true (Except.ok [5]) (fun _ => FetchRes.missing)
    (fun _ => TgOracle.mk (fun _ => PostResult.ok) (fun _ => PostResult.ok))

/-- C3 witness: the candidate whose delivery never happened (fetch reply
missing) is not marked read, yet it was fetched. -/
theorem C3_witness :
    Event.fetchMail 5 ∈ runTrace envOneMissing false ∧
    Event.markSeen 5 ∉ runTrace envOneMissing false := by
  constructor
  · exact (C3_mark_read_iff_delivered envOneMissing [5] (by decide) (by decide) rfl).2 5
      (by decide)
  · intro h
    have h2 := ((C3_mark_read_iff_delivered envOneMissing [5] (by decide) (by decide)
        rfl).1 5).mp h
    exact absurd h2.2 (by decide)

/-! ## Processing state store: `load_state` / `save_state`
(forward.py lines 76-88)

The state is `{"last_uid": n}`; we model it by its `last_uid` field (a
mailbox uid, hence a natural number) and the state file by its content
(`none` = missing file). `renderState` mirrors the output of
`json.dump(state, f, indent=2)`; `parseState` models `json.load` restricted
to the shape of the state — any other content stands for a parse failure. -/

/-- The decimal digit character for `d`. -/
def digitChar (d : Nat) : Char := Char.ofNat (48 + d)

/-- Decimal numeral of `n`, most significant digit first. -/
def natChars (n : Nat) : List Char :=
  if n = 0 then [digitChar 0] else ((Nat.digits 10 n).map digitChar).reverse

/-- The file content written by `json.dump({"last_uid": n}, f, indent=2)`. -/
def renderState (n : Nat) : List Char :=
  [braceO] ++ ['\n', ' ', ' ', '"'] ++ "last_uid".data ++ ['"', ':', ' '] ++
    natChars n ++ ['\n', braceC]

/-- JSON insignificant whitespace. -/
def isWsChar (c : Char) : Bool := c == ' ' || c == '\n' || c == '\t' || c == '\r'

/-- Skip leading whitespace. -/
def skipWs : List Char → List Char
  | [] => []
  | c :: cs => if isWsChar c then skipWs cs else c :: cs

/-- Consume the literal `pat` from the front, returning the remainder. -/
def expectChars : List Char → List Char → Option (List Char)
  | [], s => some s
  | _ :: _, [] => none
  | p :: ps, c :: cs => if p == c then expectChars ps cs else none

/-- Consume a maximal digit run, Horner-accumulating its value. -/
def parseDigitsAcc : Nat → List Char → Nat × List Char
  | acc, [] => (acc, [])
  | acc, c :: cs =>
    if c.isDigit then parseDigitsAcc (acc * 10 + (c.toNat - 48)) cs else (acc, c :: cs)

/-- Parse a nonempty decimal numeral from the front. -/
def parseNat : List Char → Option (Nat × List Char)
  | [] => none
  | c :: cs => if c.isDigit then some (parseDigitsAcc (c.toNat - 48) cs) else none

/-- Parse the state file content `{ "last_uid": n }` (whitespace-tolerant);
`none` on anything else (modelling `json.JSONDecodeError`). -/
def parseState (s : List Char) : Option Nat :=
  match expectChars [braceO] (skipWs s) with
  | none => none
  | some s1 =>
    match expectChars ('"' :: "last_uid".data ++ ['"']) (skipWs s1) with
    | none => none
    | some s2 =>
      match expectChars [':'] (skipWs s2) with
      | none => none
      | some s3 =>
        match parseNat (skipWs s3) with
        | none => none
        | some (n, s4) =>
          match expectChars [braceC] (skipWs s4) with
          | none => none
          | some s5 => if (skipWs s5).isEmpty then some n else none

/-- Model of `load_state` (forward.py lines 76-83): default zero-state on a missing
file or on content that does not parse. -/
def load_state (fs : Option (List Char)) : Nat :=
  match fs with
  | none => 0
  | some content =>
    match parseState content with
    | some n => n
    | none => 0

/-- Model of `save_state` (forward.py lines 86-88): the new state-file content. -/
def save_state (n : Nat) : Option (List Char) := some (renderState n)

lemma digitChar_isDigit {d : Nat} (h : d < 10) : (digitChar d).isDigit = true := by
  interval_cases d <;> decide

lemma digitChar_toNat {d : Nat} (h : d < 10) : (digitChar d).toNat - 48 = d := by
  interval_cases d <;> decide

lemma isWsChar_digitChar {d : Nat} (h : d < 10) : isWsChar (digitChar d) = false := by
  interval_cases d <;> decide

lemma parseDigitsAcc_spec (rest : List Char)
    (hr : ∀ c cs, rest = c :: cs → c.isDigit = false) :
    ∀ (be : List Nat), (∀ d ∈ be, d < 10) → ∀ acc,
      parseDigitsAcc acc (be.map digitChar ++ rest) =
        (be.foldl (fun a d => a * 10 + d) acc, rest) := by
  intro be
  induction be with
  | nil =>
    intro _ acc
    cases hrest : rest with
    | nil => simp [parseDigitsAcc]
    | cons c cs =>
      simp only [List.map_nil, List.nil_append, parseDigitsAcc, List.foldl_nil]
      rw [hr c cs hrest]
      simp
  | cons d ds ih =>
    intro hlt acc
    have hd : d < 10 := hlt d (List.mem_cons_self d ds)
    simp only [List.map_cons, List.cons_append, parseDigitsAcc, List.foldl_cons]
    rw [digitChar_isDigit hd]
    simp only [if_true]
    rw [digitChar_toNat hd]
    exact ih (fun x hx => hlt x (List.mem_cons_of_mem d hx)) (acc * 10 + d)

lemma foldr_horner (ds : List Nat) :
    ds.foldr (fun d a => a * 10 + d) 0 = Nat.ofDigits 10 ds := by
  induction ds with
  | nil => simp [Nat.ofDigits_nil]
  | cons d ds ih =>
    simp only [List.foldr_cons, ih, Nat.ofDigits_cons]
    ring

lemma foldl_reverse_digits (n : Nat) :
    ((Nat.digits 10 n).reverse).foldl (fun a d => a * 10 + d) 0 = n := by
  rw [List.foldl_reverse]
  have h := foldr_horner (Nat.digits 10 n)
  simp only at h ⊢
  rw [h, Nat.ofDigits_digits]

lemma natChars_head (n : Nat) :
    ∃ d ds, natChars n = (d :: ds).map digitChar ∧ (∀ x ∈ d :: ds, x < 10) ∧
      (d :: ds).foldl (fun a x => a * 10 + x) 0 = n := by
  by_cases h0 : n = 0
  · subst h0
    exact ⟨0, [], rfl, by simp, rfl⟩
  · have hne : Nat.digits 10 n ≠ [] := Nat.digits_ne_nil_iff_ne_zero.mpr h0
    have hrev : (Nat.digits 10 n).reverse ≠ [] := by simpa using hne
    obtain ⟨d, ds, hds⟩ := List.exists_cons_of_ne_nil hrev
    refine ⟨d, ds, ?_, ?_, ?_⟩
    · rw [natChars, if_neg h0, ← List.map_reverse, hds]
    · intro x hx
      have hmem : x ∈ Nat.digits 10 n := List.mem_reverse.mp (hds ▸ hx)
      exact Nat.digits_lt_base (by norm_num) hmem
    · rw [← hds]
      exact foldl_reverse_digits n

lemma parseNat_natChars (n : Nat) (rest : List Char)
    (hr : ∀ c cs, rest = c :: cs → c.isDigit = false) :
    parseNat (natChars n ++ rest) = some (n, rest) := by
  obtain ⟨d, ds, hnc, hlt, hval⟩ := natChars_head n
  have hd : d < 10 := hlt d (List.mem_cons_self d ds)
  rw [hnc]
  simp only [List.map_cons, List.cons_append, parseNat]
  rw [digitChar_isDigit hd]
  simp only [if_true]
  rw [digitChar_toNat hd]
  rw [parseDigitsAcc_spec rest hr ds (fun x hx => hlt x (List.mem_cons_of_mem d hx)) d]
  simp only [List.foldl_cons] at hval
  simp only [Nat.zero_mul, Nat.zero_add] at hval
  rw [hval]

lemma skipWs_natChars (n : Nat) (rest : List Char) :
    skipWs (natChars n ++ rest) = natChars n ++ rest := by
  obtain ⟨d, ds, hnc, hlt, _⟩ := natChars_head n
  have hd : d < 10 := hlt d (List.mem_cons_self d ds)
  rw [hnc]
  simp only [List.map_cons, List.cons_append, skipWs]
  rw [isWsChar_digitChar hd]
  simp

lemma parseState_renderState (n : Nat) : parseState (renderState n) = some n := by
  have h1 : parseState (renderState n) =
      (match parseNat (skipWs (natChars n ++ ['\n', braceC])) with
      | none => none
      | some (k, s4) =>
        match expectChars [braceC] (skipWs s4) with
        | none => none
        | some s5 => if (skipWs s5).isEmpty then some k else none) := rfl
  rw [h1, skipWs_natChars n ['\n', braceC],
    parseNat_natChars n ['\n', braceC] (fun c cs h => by cases h; rfl)]
  rfl

/-- C8: saving a processing state and loading it back yields an equal
state. -/
theorem C8_save_load_roundtrip (n : Nat) : load_state (save_state n) = n := by
  simp [load_state, save_state, parseState_renderState n]

/-- C9: a missing state file, and a state file whose content does not parse,
both load as the zero-default state, without failing the caller. -/
theorem C9_default_state (s : List Char) (h : parseState s = none) :
    load_state none = 0 ∧ load_state (some s) = 0 :=
  ⟨rfl, by simp [load_state, h]⟩

/-- C9 witness: the content `not json` does not parse and loads as the
zero-default state. -/
theorem C9_witness :
    load_state none = 0 ∧ load_state (some "not json".data) = 0 :=
  C9_default_state "not json".data (by decide)

end EmailToTelegram
